import Mathlib

/-!
Verification of the CoAP-over-TCP transport (`aiocoap/transports/tcp.py`).

This file shallowly embeds the framing codec, the per-connection stream
reassembler / signaling handler, and the client pool lookup of the source
file, and proves (or refutes) the frozen specification claims about them.

Bytes are modelled as `Nat` (a Python `bytes` object is a sequence of
integers in `0..255`; all the arithmetic of the source is plain integer
arithmetic, so no wrap-around modelling is needed).  Python functions that
can raise are modelled with `Option`/explicit error values.
-/

namespace AiocoapTcp
/-- `int.from_bytes(bs, "big")`: big-endian interpretation of a byte string. -/
def fromBytesBE (bs : List Nat) : Nat :=
  bs.foldl (fun acc b => acc * 256 + b) 0

/-- Big-endian fixed-width byte string of a natural number (the value of
`n.to_bytes(len, "big")` when it does not raise). -/
def natToBytesBE : Nat → Nat → List Nat
  | 0, _ => []
  | len + 1, n => natToBytesBE len (n / 256) ++ [n % 256]

/-- `n.to_bytes(length, "big")` for a Python `int` `n`: raises `OverflowError`
(modelled as `none`) when `n` is negative or does not fit in `length` bytes. -/
def toBytesBE (length : Nat) (n : Int) : Option (List Nat) :=
  if n < 0 then none
  else if (2 : Int) ^ (8 * length) ≤ n then none
  else some (natToBytesBE length n.toNat)

/-- `_extract_message_size(data)` from the source: reads the length nibble
`l = data[0] >> 4` and token length `tkl = data[0] & 0x0f`; for `l ≥ 13` it
reads 1, 2 or 4 extended-length bytes (big-endian) and adds the offset 13,
269 or 65805.  Returns `none` when the buffer is too short to read the
(full) length (`len(data) < extlen + 1`, i.e. `rest.length < extlen`),
else `(tokenoffset, tkl, l)`. -/
def extract_message_size (data : List Nat) : Option (Nat × Nat × Nat) :=
  match data with
  | [] => none
  | b0 :: rest =>
    let l := b0 / 16
    let tkl := b0 % 16
    if 13 ≤ l then
      let extlen : Nat := if l = 13 then 1 else if l = 14 then 2 else 4
      let offset : Nat := if l = 13 then 13 else if l = 14 then 269 else 65805
      if rest.length < extlen then none
      else some (2 + extlen, tkl, fromBytesBE (rest.take extlen) + offset)
    else some (2, tkl, l)

/-- A CoAP-over-TCP message as the framing codec sees it.  `optdata` is the
options region optionally followed by `0xFF` and the payload.  Modelled from
the spec: the option list encoding/decoding is an external collaborator, so
this byte region is treated as an opaque byte sequence (the external
`msg.opt.encode()`/`msg.opt.decode(...)` produce/consume it). -/
structure Message where
  code : Nat
  token : List Nat
  optdata : List Nat
deriving Repr, DecidableEq

/-- `_decode_message(data)` from the source: recomputes the frame geometry,
rejects a token length above 8 (`UnparsableMessage`, modelled as `none`),
and slices code byte, token, and the options-plus-payload region. -/
def decode_message (data : List Nat) : Option Message :=
  match extract_message_size data with
  | none => none
  | some (tokenoffset, tkl, _) =>
    if 8 < tkl then none
    else some
      { code := (data.drop (tokenoffset - 1)).headD 0
        token := (data.drop tokenoffset).take tkl
        optdata := data.drop (tokenoffset + tkl) }

/-- `_encode_length(l)` from the source, verbatim thresholds: note the
`l < 65535` guard of the 2-byte branch (the decoder arithmetic of
`extract_message_size` maps 2-byte frames up to `65535 + 269 - 1 = 65804`).
For `l` in `65535..65804` the 4-byte branch computes
`(l - 65805).to_bytes(4, "big")` on a negative number, which raises
`OverflowError` (modelled as `none`). -/
def encode_length (l : Nat) : Option (Nat × List Nat) :=
  if l < 13 then some (l, [])
  else if l < 269 then (toBytesBE 1 ((l : Int) - 13)).map fun bs => (13, bs)
  else if l < 65535 then (toBytesBE 2 ((l : Int) - 269)).map fun bs => (14, bs)
  else (toBytesBE 4 ((l : Int) - 65805)).map fun bs => (15, bs)

/-- `_serialize(msg)` from the source.  `data` is the options-plus-payload
region (built there by the external options serializer plus the `0xFF`
payload marker; opaque here, see `Message.optdata`).  The length nibble and
extension bytes come from `encode_length` (which can raise, modelled as
`none`); a token longer than 8 raises `ValueError`; `bytes((msg.code,))`
raises for a code above 255.  The first byte is `(l << 4) | tkl`, which for
`tkl < 16` equals `l * 16 + tkl`. -/
def serialize (msg : Message) : Option (List Nat) :=
  match encode_length msg.optdata.length with
  | none => none
  | some (l, extlen) =>
    if 8 < msg.token.length then none
    else if 255 < msg.code then none
    else some ([l * 16 + msg.token.length] ++ extlen ++ [msg.code] ++ msg.token ++ msg.optdata)

/-- Signalling code numbers (`aiocoap.numbers.codes`, an external module).
Modelled from the spec: the signalling codes capability-announce (CSM), ping,
pong, release and abort are distinct code values in the signalling code
class; in CoAP they are 7.01..7.05, that is 225..229. -/
def CSM : Nat := 225

def PING : Nat := 226

def PONG : Nat := 227

def RELEASE : Nat := 228

def ABORT : Nat := 229

/-- `Code.is_signalling` (external module).  Modelled from the spec: the
signalling range is the 7.xx code class (224..255); codes in this range that
are not in the known set exist and are handled by the generic abort. -/
def isSignalling (c : Nat) : Bool := 224 ≤ c && c < 256

/-- `OptionNumber.is_critical` (external module).  Modelled from the spec:
an option number is critical iff its least significant bit is set (the
standard odd/even convention the spec refers to). -/
def isCritical (n : Nat) : Bool := n % 2 = 1

/-- UTF-8 bytes of an ASCII diagnostic string (all diagnostics in the source
are ASCII, where UTF-8 coincides with the code points). -/
def asciiBytes (s : String) : List Nat := s.toList.map Char.toNat

/-- One option of a decoded message: `opt.number` and `opt.value` as the
signalling handler reads them. -/
structure OptionValue where
  number : Nat
  value : List Nat
deriving Repr, DecidableEq

/-- A message at the level the connection handles it: code, token, decoded
option list and payload.  The option list and payload come from the external
options codec applied to the `Message.optdata` region. -/
structure CoapMsg where
  code : Nat
  token : List Nat
  options : List OptionValue
  payload : List Nat
deriving Repr, DecidableEq

/-- Observable actions of a connection: writing a serialized message to the
transport (`_send_message`), forwarding a decoded application message to the
dispatch layer (`_ctx._dispatch_incoming`), and closing the transport
(`_transport.close()`, including the close the event loop performs after an
exception escapes `data_received`). -/
inductive Event where
  | sent (m : CoapMsg)
  | dispatched (m : CoapMsg)
  | closedTransport
deriving Repr, DecidableEq

/-- The `self._remote_settings` dictionary once it is not `None`. -/
structure RemoteSettings where
  maxMessageSize : Option Nat
  blockWiseTransfer : Bool
deriving Repr, DecidableEq

/-- Mutable state of one `TcpConnection`: the accumulation buffer
`self._spool`, `self._remote_settings`, and whether the transport has been
closed (after which the event loop delivers no further reads). -/
structure ConnState where
  spool : List Nat
  remoteSettings : Option RemoteSettings
  closed : Bool
deriving Repr, DecidableEq

/-- `self._my_max_message_size` as set in `TcpConnection.__init__`. -/
def myMaxMessageSize : Nat := 1024 * 1024

/-- Python exceptions that can escape the handlers: the `NameError` raised
by `abort` when called with `bad_csm_option` (the code there references the
undefined name `block_length`), and `NotImplementedError` for RELEASE/ABORT
signalling messages. -/
inductive PyExc where
  | nameError
  | notImplementedError
deriving Repr, DecidableEq

/-- The abort frame `Message(code=ABORT)` with the optional UTF-8 encoded
diagnostic as payload. -/
def abortMessage (diagnostic : Option String) : CoapMsg :=
  { code := ABORT, token := [], options := [],
    payload := (diagnostic.map asciiBytes).getD [] }

/-- `TcpConnection.abort(errormessage, bad_csm_option)` from the source.
When `bad_csm_option` is given, the code builds `bad_csm_option_option` but
then evaluates `abort_msg.opt.add_option(block_length)` where `block_length`
is an undefined name, so a `NameError` is raised before anything is sent and
before the transport is closed.  Without `bad_csm_option`, the abort frame is
sent and the transport is closed. -/
def TcpConnection.abort (s : ConnState) (errormessage : Option String)
    (bad_csm_option : Option Nat) : (ConnState × List Event) × Option PyExc :=
  match bad_csm_option with
  | some _ => ((s, []), some .nameError)
  | none =>
    (({ s with closed := true },
      [.sent (abortMessage errormessage), .closedTransport]), none)

/-- The option loop of `_process_signaling` for a CSM message: option 2 sets
max-message-size (big-endian), option 4 sets the block-wise-transfer flag,
any other critical option number calls `self.abort(bad_csm_option=...)`,
which raises `NameError` (see `TcpConnection.abort`), ending the loop with
the updates made so far; elective unknown options are ignored. -/
def applyCsmOptions (st : RemoteSettings) :
    List OptionValue → RemoteSettings × Option PyExc
  | [] => (st, none)
  | o :: rest =>
    if o.number = 2 then
      applyCsmOptions { st with maxMessageSize := some (fromBytesBE o.value) } rest
    else if o.number = 4 then
      applyCsmOptions { st with blockWiseTransfer := true } rest
    else if isCritical o.number then (st, some .nameError)
    else applyCsmOptions st rest

/-- The option loop of `_process_signaling` for PING/PONG/RELEASE/ABORT
messages: the first critical option calls `self.abort(bad_csm_option=...)`,
which raises `NameError`; elective options are ignored. -/
def findStrayCritical : List OptionValue → Option PyExc
  | [] => none
  | o :: rest =>
    if isCritical o.number then some .nameError else findStrayCritical rest

/-- `TcpConnection._process_signaling(msg)` from the source.  Returns the
updated state, the events produced, and the exception that escaped, if any
(`NameError` from `abort(bad_csm_option=...)`, `NotImplementedError` for
RELEASE and ABORT). -/
def TcpConnection.process_signaling (s : ConnState) (m : CoapMsg) :
    (ConnState × List Event) × Option PyExc :=
  if m.code = CSM then
    let st0 := s.remoteSettings.getD { maxMessageSize := none, blockWiseTransfer := false }
    let r := applyCsmOptions st0 m.options
    (({ s with remoteSettings := some r.1 }, []), r.2)
  else if m.code = PING ∨ m.code = PONG ∨ m.code = RELEASE ∨ m.code = ABORT then
    match findStrayCritical m.options with
    | some e => ((s, []), some e)
    | none =>
      if m.code = PING then
        ((s, [.sent { code := PONG, token := m.token, options := [], payload := [] }]), none)
      else if m.code = PONG then ((s, []), none)
      else ((s, []), some .notImplementedError)
  else
    ((TcpConnection.abort s (some ("Unknown signalling code")) none).1, none)

/-- The external options deserializer `msg.opt.decode(data)` (outside this
core): from the options-plus-payload byte region it produces the option list
and the payload, or fails with `UnparsableMessage` (`none`).  The connection
machinery below is parameterized over it. -/
def OptDecoder : Type := List Nat → Option (List OptionValue × List Nat)

/-- `_decode_message` at the level the connection uses it: frame slicing via
`decode_message` followed by the external options deserializer; either
failure is the `UnparsableMessage` caught in `data_received`. -/
def decodeWithOptions (od : OptDecoder) (frame : List Nat) : Option CoapMsg :=
  match decode_message frame with
  | none => none
  | some m =>
    match od m.optdata with
    | none => none
    | some (opts, payload) =>
      some { code := m.code, token := m.token, options := opts, payload := payload }

/-- Outcome of one iteration of the `while True` loop in `data_received`:
`wait` is a `break` (need more bytes), `halt` is a `return` (the loop and the
current read end), `step` is reaching the end of the loop body or `continue`. -/
inductive StepOut where
  | wait
  | halt (s : ConnState) (ev : List Event)
  | step (s : ConnState) (ev : List Event)
deriving Repr, DecidableEq

/-- One iteration of the `while True` loop of `TcpConnection.data_received`:
measure the spool; `break` when the size cannot be read yet; `abort()` and
`return` when the total length exceeds `_my_max_message_size`; `break` when
the frame is not yet complete; slice the frame and decode it, aborting with
"Failed to parse message" on `UnparsableMessage`; advance the spool; route
signalling messages through `_process_signaling` (an escaping exception is
fatal: the event loop closes the transport and the read ends) and `continue`;
abort with "No CSM received" when an application message arrives before any
CSM; otherwise dispatch the message and continue the loop. -/
def spoolStep (od : OptDecoder) (s : ConnState) : StepOut :=
  match extract_message_size s.spool with
  | none => .wait
  | some (tokenoffset, tkl, l) =>
    let msglen := tokenoffset + tkl + l
    if myMaxMessageSize < msglen then
      .halt (TcpConnection.abort s none none).1.1 (TcpConnection.abort s none none).1.2
    else if s.spool.length < msglen then
      .wait
    else
      match decodeWithOptions od (s.spool.take msglen) with
      | none =>
        .halt (TcpConnection.abort s (some ("Failed to parse message")) none).1.1
          (TcpConnection.abort s (some ("Failed to parse message")) none).1.2
      | some msg =>
        let s1 : ConnState := { s with spool := s.spool.drop msglen }
        if isSignalling msg.code then
          match TcpConnection.process_signaling s1 msg with
          | ((s2, ev), some _) => .halt { s2 with closed := true } (ev ++ [.closedTransport])
          | ((s2, ev), none) => .step s2 ev
        else if s1.remoteSettings = none then
          .halt (TcpConnection.abort s1 (some ("No CSM received")) none).1.1
            (TcpConnection.abort s1 (some ("No CSM received")) none).1.2
        else
          .step s1 [.dispatched msg]

/-- Result of running the `data_received` loop to completion: final state,
events in order, and whether the loop ended in a `return` (`halted = true`)
rather than by `break`. -/
structure RunOut where
  state : ConnState
  events : List Event
  halted : Bool
deriving Repr, DecidableEq

/-- The `while True` loop of `data_received`, with explicit fuel.  Each
`step` iteration consumes at least two spool bytes (`step_spool_shrinks`),
so any fuel above the spool length makes the fuel irrelevant
(`processSpool_fuel`). -/
def processSpool (od : OptDecoder) : Nat → ConnState → RunOut
  | 0, s => ⟨s, [], false⟩
  | fuel + 1, s =>
    match spoolStep od s with
    | .wait => ⟨s, [], false⟩
    | .halt s1 ev => ⟨s1, ev, true⟩
    | .step s1 ev =>
      let r := processSpool od fuel s1
      ⟨r.state, ev ++ r.events, r.halted⟩

/-- `TcpConnection.data_received(data)` from the source, as invoked by the
event loop: nothing is delivered once the transport is closed; otherwise the
data is appended to `self._spool` and the loop runs. -/
def TcpConnection.data_received (od : OptDecoder) (s : ConnState) (data : List Nat) : RunOut :=
  if s.closed then ⟨s, [], false⟩
  else processSpool od (s.spool.length + data.length + 1) { s with spool := s.spool ++ data }

/-- Delivering a byte sequence one byte per read: each byte is a separate
`data_received` call; events are concatenated in order. -/
def feedBytes (od : OptDecoder) (s : ConnState) : List Nat → ConnState × List Event
  | [] => (s, [])
  | b :: rest =>
    let r := TcpConnection.data_received od s [b]
    let r2 := feedBytes od r.state rest
    (r2.1, r.events ++ r2.2)

/-- A concrete options deserializer agreeing with the real external codec on
the empty region.  Modelled from the spec: the options codec is an external
collaborator; on an empty options-plus-payload region it yields no options
and an empty payload.  Concrete runs below only ever decode empty regions. -/
def emptyOptDecode : OptDecoder := fun bs => if bs = [] then some ([], []) else none

/-- The ordered sequence of messages a run forwarded to the dispatch layer. -/
def dispatchedEvents (evs : List Event) : List CoapMsg :=
  evs.filterMap fun e =>
    match e with
    | .dispatched m => some m
    | _ => none

/-- `COAP_PORT` from the aiocoap package (external constant): the default
CoAP port used when no port is given. -/
def COAP_PORT : Nat := 5683

/-- `port = message.opt.uri_port or COAP_PORT` (and likewise
`pseudoparsed.port or COAP_PORT`): Python `or` falls back both on `None` and
on a zero port. -/
def orCoapPort (p : Option Nat) : Nat :=
  match p with
  | none => COAP_PORT
  | some q => if q = 0 then COAP_PORT else q

/-- The authority part of `message.unresolved_remote` as
`urllib.parse.SplitResult` exposes it: an optional hostname and an optional
port.  Modelled from the spec: an unresolved remote-location string is
parsed as a `scheme://host:port`-like authority. -/
structure Authority where
  hostname : Option String
  port : Option Nat
deriving Repr, DecidableEq

/-- The fields of an outgoing message that `TCPClient` routing reads:
whether `message.remote` is already a `TcpConnection` owned by this pool
(the check at the top of `fill_or_recognize_remote`), the unresolved remote
authority, the `uri_host`/`uri_port` options, and the requested scheme. -/
structure OutgoingMessage where
  remoteIsThisPool : Bool
  unresolved_remote : Option Authority
  uri_host : Option String
  uri_port : Option Nat
  requested_scheme : Option String
deriving Repr, DecidableEq

/-- `TCPClient` state: `self._pool`, a mapping from (host, port) to a
connection, with connections represented by numeric identities, plus a
supply of fresh identities standing for `loop.create_connection` producing
a new `TcpConnection`. -/
structure TCPClientState where
  pool : List ((Option String × Nat) × Nat)
  nextConnId : Nat
deriving Repr, DecidableEq

/-- `(host, port) in self._pool` / `self._pool[(host, port)]`. -/
def poolLookup : List ((Option String × Nat) × Nat) → Option String × Nat → Option Nat
  | [], _ => none
  | (k, v) :: rest, key => if k = key then some v else poolLookup rest key

/-- Result of `_spawn_protocol`: a connection identity, or the `ValueError`
raised when no destination can be determined. -/
inductive SpawnResult where
  | conn (connId : Nat)
  | valueError (msg : String)
deriving Repr, DecidableEq

/-- The tail of `_spawn_protocol`: reuse the pooled connection for
`(host, port)` if present, otherwise create a new connection and insert it
into the pool under that key. -/
def spawnLookup (st : TCPClientState) (host : Option String) (port : Nat) :
    TCPClientState × SpawnResult :=
  match poolLookup st.pool (host, port) with
  | some cid => (st, .conn cid)
  | none =>
    ({ pool := st.pool ++ [((host, port), st.nextConnId)], nextConnId := st.nextConnId + 1 },
      .conn st.nextConnId)

/-- `TCPClient._spawn_protocol(message)` from the source: with no unresolved
remote, the host comes from `uri_host` and the port from `uri_port or
COAP_PORT`, and a missing host raises `ValueError`; with an unresolved
remote, host and port come from the parsed authority.  Then the pool is
consulted or a new connection is created and pooled. -/
def TCPClient.spawn_protocol (st : TCPClientState) (m : OutgoingMessage) :
    TCPClientState × SpawnResult :=
  match m.unresolved_remote with
  | none =>
    match m.uri_host with
    | none =>
      (st, .valueError
        ("No location found to send message to (neither in .opt.uri_host nor in .remote)"))
    | some h => spawnLookup st (some h) (orCoapPort m.uri_port)
  | some auth => spawnLookup st auth.hostname (orCoapPort auth.port)

/-- Result of `fill_or_recognize_remote`: `recognized` (returning `True`,
with the connection spawned for the message if any), `notApplicable`
(returning `False`), or the propagated `ValueError`. -/
inductive FillResult where
  | recognized (newConn : Option Nat)
  | notApplicable
  | valueError (msg : String)
deriving Repr, DecidableEq

/-- `TCPClient.fill_or_recognize_remote(message)` from the source: an
established remote connection of this pool is recognized as-is; otherwise,
for the `coap+tcp` scheme, `_spawn_protocol` resolves or creates the
connection; otherwise the message is not for this transport. -/
def TCPClient.fill_or_recognize_remote (st : TCPClientState) (m : OutgoingMessage) :
    TCPClientState × FillResult :=
  if m.remoteIsThisPool then (st, .recognized none)
  else if m.requested_scheme = some ("coap+tcp") then
    match TCPClient.spawn_protocol st m with
    | (st2, .conn cid) => (st2, .recognized (some cid))
    | (st2, .valueError e) => (st2, .valueError e)
  else (st, .notApplicable)

/-- The `tokenoffset` component returned by `extract_message_size` is always
at least 2 (one flag byte plus one code byte). -/
theorem extract_tokenoffset_ge_two {data : List Nat} {t k l : Nat}
    (h : extract_message_size data = some (t, k, l)) : 2 ≤ t := by
  match data with
  | [] => simp [extract_message_size] at h
  | b0 :: rest =>
    simp only [extract_message_size] at h
    repeat' split at h
    all_goals first
      | exact Option.noConfusion h
      | (simp only [Option.some.injEq, Prod.mk.injEq] at h; omega)

/-- Measuring a buffer is stable under appending more bytes: once
`extract_message_size` returns a triple on `b`, it returns the same triple
on `b ++ c`.  (Shared helper; the loop in `data_received` relies on it.) -/
theorem extract_message_size_append {b : List Nat} (c : List Nat) {t k l : Nat}
    (h : extract_message_size b = some (t, k, l)) :
    extract_message_size (b ++ c) = some (t, k, l) := by
  match b with
  | [] => simp [extract_message_size] at h
  | b0 :: rest =>
    simp only [extract_message_size, List.cons_append] at h ⊢
    by_cases h13 : 13 ≤ b0 / 16
    · rw [if_pos h13] at h ⊢
      by_cases hlen : rest.length < (if b0 / 16 = 13 then 1 else if b0 / 16 = 14 then 2 else 4)
      · rw [if_pos hlen] at h
        exact absurd h (by simp)
      · rw [if_neg hlen] at h
        push_neg at hlen
        rw [if_neg (by simp only [List.length_append]; omega)]
        rw [List.take_append_of_le_length hlen]
        exact h
    · rw [if_neg h13] at h ⊢
      exact h

theorem length_natToBytesBE (k n : Nat) : (natToBytesBE k n).length = k := by
  induction k generalizing n with
  | zero => rfl
  | succ k ih => simp [natToBytesBE, ih]

theorem fromBytesBE_append_singleton (xs : List Nat) (b : Nat) :
    fromBytesBE (xs ++ [b]) = fromBytesBE xs * 256 + b := by
  simp [fromBytesBE, List.foldl_append]

theorem fromBytesBE_natToBytesBE (k n : Nat) (h : n < 256 ^ k) :
    fromBytesBE (natToBytesBE k n) = n := by
  induction k generalizing n with
  | zero =>
    simp [natToBytesBE, fromBytesBE]
    omega
  | succ k ih =>
    have hdiv : n / 256 < 256 ^ k := by
      rw [Nat.div_lt_iff_lt_mul (by norm_num)]
      calc n < 256 ^ (k + 1) := h
        _ = 256 ^ k * 256 := by ring
    rw [natToBytesBE, fromBytesBE_append_singleton, ih _ hdiv]
    omega

/-- Measuring a frame whose length nibble is below 13. -/
theorem extract_small (l tkl : Nat) (rest : List Nat) (hl : l < 13) (htkl : tkl < 16) :
    extract_message_size ((l * 16 + tkl) :: rest) = some (2, tkl, l) := by
  have h1 : (l * 16 + tkl) / 16 = l := by omega
  have h2 : (l * 16 + tkl) % 16 = tkl := by omega
  simp only [extract_message_size, h1, h2]
  rw [if_neg (by omega)]

/-- Measuring a frame whose length nibble is 13, 14 or 15, with exactly the
matching number of extension bytes present. -/
theorem extract_ext (l tkl : Nat) (ext rest : List Nat) (hl13 : 13 ≤ l) (_hl : l ≤ 15)
    (htkl : tkl < 16)
    (hext : ext.length = if l = 13 then 1 else if l = 14 then 2 else 4) :
    extract_message_size ((l * 16 + tkl) :: (ext ++ rest)) =
      some (2 + ext.length, tkl,
        fromBytesBE ext + (if l = 13 then 13 else if l = 14 then 269 else 65805)) := by
  have h1 : (l * 16 + tkl) / 16 = l := by omega
  have h2 : (l * 16 + tkl) % 16 = tkl := by omega
  simp only [extract_message_size, h1, h2]
  rw [if_pos hl13, if_neg (by simp only [List.length_append]; omega), ← hext,
    List.take_left]

/-- Decoding a well-formed frame `flag-byte :: ext ++ code :: token ++ optdata`
whose measurement yields its exact geometry. -/
theorem decode_message_frame (b0 c : Nat) (ext tok dat : List Nat)
    (hx : extract_message_size (b0 :: (ext ++ c :: (tok ++ dat))) =
      some (2 + ext.length, tok.length, dat.length))
    (htok : tok.length ≤ 8) :
    decode_message (b0 :: (ext ++ c :: (tok ++ dat))) = some ⟨c, tok, dat⟩ := by
  unfold decode_message
  rw [hx]
  dsimp only
  rw [if_neg (by omega)]
  have h1 : (b0 :: (ext ++ c :: (tok ++ dat))).drop (2 + ext.length - 1) =
      c :: (tok ++ dat) := by
    rw [show 2 + ext.length - 1 = ext.length + 1 from by omega, List.drop_succ_cons,
      List.drop_left]
  have h2 : (b0 :: (ext ++ c :: (tok ++ dat))).drop (2 + ext.length) = tok ++ dat := by
    rw [show 2 + ext.length = (ext.length + 1) + 1 from by omega, List.drop_succ_cons,
      show ext.length + 1 = ext.length + 1 from rfl, List.drop_append, List.drop_one,
      List.tail_cons]
  have h3 : (b0 :: (ext ++ c :: (tok ++ dat))).drop (2 + ext.length + tok.length) = dat := by
    rw [show 2 + ext.length + tok.length = (ext.length + (tok.length + 1)) + 1 from by omega,
      List.drop_succ_cons, List.drop_append, List.drop_succ_cons, List.drop_left]
  rw [h1, h2, h3, List.take_left]
  rfl

/-- `decode_message` inverts `serialize`: whenever serialization succeeds, the
produced frame decodes back to exactly the source message. -/
theorem serialize_roundtrip (m : Message) (bs : List Nat)
    (h : serialize m = some bs) : decode_message bs = some m := by
  unfold serialize at h
  cases henc : encode_length m.optdata.length with
  | none => rw [henc] at h; exact Option.noConfusion h
  | some le =>
    obtain ⟨l, ext⟩ := le
    rw [henc] at h
    dsimp only at h
    by_cases htok : 8 < m.token.length
    · rw [if_pos htok] at h; exact Option.noConfusion h
    rw [if_neg htok] at h
    by_cases hcode : 255 < m.code
    · rw [if_pos hcode] at h; exact Option.noConfusion h
    rw [if_neg hcode] at h
    obtain rfl := (Option.some.inj h).symm
    push_neg at htok
    unfold encode_length at henc
    by_cases hn1 : m.optdata.length < 13
    · rw [if_pos hn1] at henc
      have hle := Option.some.inj henc
      obtain ⟨rfl, rfl⟩ : m.optdata.length = l ∧ [] = ext :=
        ⟨congrArg Prod.fst hle, congrArg Prod.snd hle⟩
      have hx : extract_message_size
          ((m.optdata.length * 16 + m.token.length) :: ([] ++ m.code :: (m.token ++ m.optdata))) =
          some (2 + List.length ([] : List Nat), m.token.length, m.optdata.length) := by
        simp only [List.nil_append, List.length_nil, Nat.add_zero]
        rw [extract_small _ _ _ hn1 (by omega)]
      exact decode_message_frame _ _ _ _ _ hx htok
    rw [if_neg hn1] at henc
    push_neg at hn1
    by_cases hn2 : m.optdata.length < 269
    · rw [if_pos hn2, toBytesBE, if_neg (by omega), if_neg (by push_neg; omega)] at henc
      dsimp only [Option.map] at henc
      have hle := Option.some.inj henc
      obtain ⟨rfl, rfl⟩ : 13 = l ∧ natToBytesBE 1 ((m.optdata.length : Int) - 13).toNat = ext :=
        ⟨congrArg Prod.fst hle, congrArg Prod.snd hle⟩
      have hx : extract_message_size
          ((13 * 16 + m.token.length) ::
            (natToBytesBE 1 ((m.optdata.length : Int) - 13).toNat ++
              m.code :: (m.token ++ m.optdata))) =
          some (2 + (natToBytesBE 1 ((m.optdata.length : Int) - 13).toNat).length,
            m.token.length, m.optdata.length) := by
        rw [extract_ext 13 _ _ _ (by omega) (by omega) (by omega)
          (by simp [length_natToBytesBE])]
        rw [fromBytesBE_natToBytesBE _ _ (by omega)]
        norm_num
        omega
      exact decode_message_frame _ _ _ _ _ hx htok
    rw [if_neg hn2] at henc
    push_neg at hn2
    by_cases hn3 : m.optdata.length < 65535
    · rw [if_pos hn3, toBytesBE, if_neg (by omega), if_neg (by push_neg; omega)] at henc
      dsimp only [Option.map] at henc
      have hle := Option.some.inj henc
      obtain ⟨rfl, rfl⟩ : 14 = l ∧ natToBytesBE 2 ((m.optdata.length : Int) - 269).toNat = ext :=
        ⟨congrArg Prod.fst hle, congrArg Prod.snd hle⟩
      have hx : extract_message_size
          ((14 * 16 + m.token.length) ::
            (natToBytesBE 2 ((m.optdata.length : Int) - 269).toNat ++
              m.code :: (m.token ++ m.optdata))) =
          some (2 + (natToBytesBE 2 ((m.optdata.length : Int) - 269).toNat).length,
            m.token.length, m.optdata.length) := by
        rw [extract_ext 14 _ _ _ (by omega) (by omega) (by omega)
          (by simp [length_natToBytesBE])]
        rw [fromBytesBE_natToBytesBE _ _ (by omega)]
        norm_num
        omega
      exact decode_message_frame _ _ _ _ _ hx htok
    rw [if_neg hn3] at henc
    push_neg at hn3
    rw [toBytesBE] at henc
    by_cases hneg : ((m.optdata.length : Int) - 65805) < 0
    · rw [if_pos hneg] at henc
      exact Option.noConfusion henc
    rw [if_neg hneg] at henc
    by_cases hbig : (2 : Int) ^ (8 * 4) ≤ (m.optdata.length : Int) - 65805
    · rw [if_pos hbig] at henc
      exact Option.noConfusion henc
    rw [if_neg hbig] at henc
    push_neg at hneg hbig
    dsimp only [Option.map] at henc
    have hle := Option.some.inj henc
    obtain ⟨rfl, rfl⟩ : 15 = l ∧ natToBytesBE 4 ((m.optdata.length : Int) - 65805).toNat = ext :=
      ⟨congrArg Prod.fst hle, congrArg Prod.snd hle⟩
    have hx : extract_message_size
        ((15 * 16 + m.token.length) ::
          (natToBytesBE 4 ((m.optdata.length : Int) - 65805).toNat ++
            m.code :: (m.token ++ m.optdata))) =
        some (2 + (natToBytesBE 4 ((m.optdata.length : Int) - 65805).toNat).length,
          m.token.length, m.optdata.length) := by
      rw [extract_ext 15 _ _ _ (by omega) (by omega) (by omega)
        (by simp [length_natToBytesBE])]
      rw [fromBytesBE_natToBytesBE _ _ (by omega)]
      norm_num
      omega
    exact decode_message_frame _ _ _ _ _ hx htok

/-- C1: behaviour of `encode_length` at every documented threshold against
the decoding arithmetic of `extract_message_size`.  Sizes 12, 13, 268, 269,
65534 and 65805 select the documented nibble and extension bytes, and
measuring the produced header recovers exactly the input size.  At 65535 and
65804 the claim fails on the code: the `l < 65535` guard (instead of
`l < 65805`) sends these sizes into the 4-byte branch, where
`(l - 65805).to_bytes(4, "big")` is evaluated on a negative number and
raises `OverflowError`, so no encoding is produced at all. -/
theorem c1_length_boundaries :
    (encode_length 12 = some (12, []) ∧ extract_message_size [192] = some (2, 0, 12)) ∧
    (encode_length 13 = some (13, [0]) ∧ extract_message_size [208, 0] = some (3, 0, 13)) ∧
    (encode_length 268 = some (13, [255]) ∧ extract_message_size [208, 255] = some (3, 0, 268)) ∧
    (encode_length 269 = some (14, [0, 0]) ∧ extract_message_size [224, 0, 0] = some (4, 0, 269)) ∧
    (encode_length 65534 = some (14, [254, 241]) ∧
      extract_message_size [224, 254, 241] = some (4, 0, 65534)) ∧
    (encode_length 65805 = some (15, [0, 0, 0, 0]) ∧
      extract_message_size [240, 0, 0, 0, 0] = some (6, 0, 65805)) ∧
    encode_length 65535 = none ∧
    encode_length 65804 = none :=
  ⟨⟨by decide, by decide⟩, ⟨by decide, by decide⟩, ⟨by decide, by decide⟩,
    ⟨by decide, by decide⟩, ⟨by decide, by decide⟩, ⟨by decide, by decide⟩,
    by decide, by decide⟩

/-- `serialize` returns `none` whenever `encode_length` raises on the length
of the options-plus-payload region. -/
theorem serialize_none (m : Message) (h : encode_length m.optdata.length = none) :
    serialize m = none := by
  unfold serialize
  rw [h]

/-- C2: round-trip of the frame codec.  Whenever `serialize` succeeds the
produced frame decodes back to exactly the source message (code, token and
options/payload bytes); but the claim as stated fails on the code because
`serialize` is not total on valid messages: for a message whose
options-plus-payload region is 65535 bytes long (token length 0, well within
validity), `serialize` raises `OverflowError` through `encode_length`. -/
theorem c2_roundtrip :
    serialize { code := 1, token := [], optdata := List.replicate 65535 0 } = none ∧
    ∀ (m : Message) (bs : List Nat), serialize m = some bs → decode_message bs = some m := by
  constructor
  · apply serialize_none
    rw [List.length_replicate]
    decide
  · exact serialize_roundtrip

/-- Witness for the round-trip part of C2 at a concrete message. -/
theorem c2_roundtrip_witness :
    serialize { code := 69, token := [1, 2], optdata := [3, 4] } = some [34, 69, 1, 2, 3, 4] ∧
    decode_message [34, 69, 1, 2, 3, 4] = some { code := 69, token := [1, 2], optdata := [3, 4] } :=
  ⟨by decide, c2_roundtrip.2 _ _ (by decide)⟩

/-- C10: prefix stability of the frame-length measurement: if
`extract_message_size b` returns a triple, then any extension `b ++ c`
returns the same triple, so re-measuring a growing accumulation buffer never
moves an already-determined frame boundary. -/
theorem c10_extract_prefix_stable (b c : List Nat) (t k l : Nat)
    (h : extract_message_size b = some (t, k, l)) :
    extract_message_size (b ++ c) = some (t, k, l) :=
  extract_message_size_append c h

/-- Witness for C10: a code-13 header measured from a 2-byte buffer keeps its
measurement when two more bytes are appended. -/
theorem c10_extract_prefix_stable_witness :
    extract_message_size [209, 5] = some (3, 1, 18) ∧
    extract_message_size ([209, 5] ++ [7, 7]) = some (3, 1, 18) :=
  ⟨by decide, c10_extract_prefix_stable [209, 5] [7, 7] 3 1 18 (by decide)⟩

/-- `_process_signaling` never reads or writes the spool: substituting the
spool commutes with it. -/
theorem process_signaling_subst (s : ConnState) (x : List Nat) (m : CoapMsg) :
    TcpConnection.process_signaling { s with spool := x } m =
      ((({ (TcpConnection.process_signaling s m).1.1 with spool := x }),
        (TcpConnection.process_signaling s m).1.2),
        (TcpConnection.process_signaling s m).2) := by
  unfold TcpConnection.process_signaling TcpConnection.abort
  repeat' split
  all_goals rfl

/-- `_process_signaling` leaves the spool unchanged. -/
theorem process_signaling_spool (s : ConnState) (m : CoapMsg) :
    (TcpConnection.process_signaling s m).1.1.spool = s.spool := by
  unfold TcpConnection.process_signaling TcpConnection.abort
  repeat' split
  all_goals rfl

/-- Each `step` iteration of the loop consumes at least the two header bytes
of one frame, so the spool strictly shrinks. -/
theorem step_spool_shrinks {od : OptDecoder} {s s1 : ConnState} {ev : List Event}
    (h : spoolStep od s = .step s1 ev) : s1.spool.length < s.spool.length := by
  unfold spoolStep at h
  cases hx : extract_message_size s.spool with
  | none => rw [hx] at h; exact StepOut.noConfusion h
  | some tk =>
    obtain ⟨t, k, l⟩ := tk
    rw [hx] at h
    dsimp only at h
    have ht := extract_tokenoffset_ge_two hx
    by_cases h1 : myMaxMessageSize < t + k + l
    · rw [if_pos h1] at h; exact StepOut.noConfusion h
    rw [if_neg h1] at h
    by_cases h2 : s.spool.length < t + k + l
    · rw [if_pos h2] at h; exact StepOut.noConfusion h
    rw [if_neg h2] at h
    push_neg at h2
    cases hd : decodeWithOptions od (s.spool.take (t + k + l)) with
    | none => rw [hd] at h; exact StepOut.noConfusion h
    | some msg =>
      rw [hd] at h
      dsimp only at h
      by_cases hs : isSignalling msg.code = true
      · rw [if_pos hs] at h
        rcases hps : TcpConnection.process_signaling
            { s with spool := s.spool.drop (t + k + l) } msg with ⟨⟨s2, ev2⟩, exc⟩
        rw [hps] at h
        cases exc with
        | some e => exact StepOut.noConfusion h
        | none =>
          injection h with hs1 hev
          subst hs1
          have hsp : s2.spool = s.spool.drop (t + k + l) := by
            have := process_signaling_spool { s with spool := s.spool.drop (t + k + l) } msg
            rw [hps] at this
            exact this
          rw [hsp, List.length_drop]
          omega
      · rw [if_neg hs] at h
        by_cases hrs : ({ s with spool := s.spool.drop (t + k + l) } : ConnState).remoteSettings = none
        · rw [if_pos hrs] at h; exact StepOut.noConfusion h
        · rw [if_neg hrs] at h
          injection h with hs1 hev
          subst hs1
          simp only [List.length_drop]
          omega

/-- Behaviour of one loop iteration under extension of the spool: a `halt` or
`step` outcome is preserved exactly (same events, same state except that the
extension rides along at the end of the spool); only a `wait` outcome can
change. -/
theorem spoolStep_append (od : OptDecoder) (s : ConnState) (extra : List Nat) :
    spoolStep od s = .wait ∨
    (∃ s1 ev, spoolStep od s = .halt s1 ev ∧
      spoolStep od { s with spool := s.spool ++ extra } =
        .halt { s1 with spool := s1.spool ++ extra } ev) ∨
    (∃ s1 ev, spoolStep od s = .step s1 ev ∧
      spoolStep od { s with spool := s.spool ++ extra } =
        .step { s1 with spool := s1.spool ++ extra } ev) := by
  cases hx : extract_message_size s.spool with
  | none => exact Or.inl (by unfold spoolStep; rw [hx])
  | some tk =>
    obtain ⟨t, k, l⟩ := tk
    have hxe : extract_message_size (s.spool ++ extra) = some (t, k, l) :=
      extract_message_size_append extra hx
    by_cases h1 : myMaxMessageSize < t + k + l
    · refine Or.inr (Or.inl ⟨{ s with closed := true },
        [.sent (abortMessage none), .closedTransport], ?_, ?_⟩)
      · unfold spoolStep
        rw [hx]
        dsimp only
        rw [if_pos h1]
        rfl
      · unfold spoolStep
        rw [hxe]
        dsimp only
        rw [if_pos h1]
        rfl
    by_cases h2 : s.spool.length < t + k + l
    · exact Or.inl (by
        unfold spoolStep
        rw [hx]
        dsimp only
        rw [if_neg h1, if_pos h2])
    push_neg at h2
    have htake : (s.spool ++ extra).take (t + k + l) = s.spool.take (t + k + l) :=
      List.take_append_of_le_length h2
    have hdrop : (s.spool ++ extra).drop (t + k + l) = s.spool.drop (t + k + l) ++ extra :=
      List.drop_append_of_le_length h2
    have hlen2 : ¬(s.spool ++ extra).length < t + k + l := by
      simp only [List.length_append]
      omega
    cases hd : decodeWithOptions od (s.spool.take (t + k + l)) with
    | none =>
      refine Or.inr (Or.inl ⟨{ s with closed := true },
        [.sent (abortMessage (some ("Failed to parse message"))), .closedTransport], ?_, ?_⟩)
      · unfold spoolStep
        rw [hx]
        dsimp only
        rw [if_neg h1, if_neg (by omega), hd]
        rfl
      · unfold spoolStep
        rw [hxe]
        dsimp only
        rw [if_neg h1, if_neg hlen2, htake, hd]
        rfl
    | some msg =>
      by_cases hs : isSignalling msg.code = true
      · rcases hps : TcpConnection.process_signaling
            { s with spool := s.spool.drop (t + k + l) } msg with ⟨⟨s2, ev2⟩, exc⟩
        have hpse : TcpConnection.process_signaling
            { s with spool := s.spool.drop (t + k + l) ++ extra } msg =
            (({ s2 with spool := s.spool.drop (t + k + l) ++ extra }, ev2), exc) := by
          have h0 := process_signaling_subst
            { s with spool := s.spool.drop (t + k + l) }
            (s.spool.drop (t + k + l) ++ extra) msg
          simp only [hps] at h0
          exact h0
        have hsp2 : s2.spool = s.spool.drop (t + k + l) := by
          have := process_signaling_spool { s with spool := s.spool.drop (t + k + l) } msg
          rw [hps] at this
          exact this
        cases exc with
        | some e =>
          refine Or.inr (Or.inl ⟨{ s2 with closed := true }, ev2 ++ [.closedTransport], ?_, ?_⟩)
          · unfold spoolStep
            rw [hx]
            dsimp only
            rw [if_neg h1, if_neg (by omega), hd]
            dsimp only
            rw [if_pos hs, hps]
          · unfold spoolStep
            rw [hxe]
            dsimp only
            rw [if_neg h1, if_neg hlen2, htake, hd]
            dsimp only
            rw [if_pos hs, hdrop, hpse]
            dsimp only
            rw [hsp2]
        | none =>
          refine Or.inr (Or.inr ⟨s2, ev2, ?_, ?_⟩)
          · unfold spoolStep
            rw [hx]
            dsimp only
            rw [if_neg h1, if_neg (by omega), hd]
            dsimp only
            rw [if_pos hs, hps]
          · unfold spoolStep
            rw [hxe]
            dsimp only
            rw [if_neg h1, if_neg hlen2, htake, hd]
            dsimp only
            rw [if_pos hs, hdrop, hpse]
            dsimp only
            rw [hsp2]
      · by_cases hrs : s.remoteSettings = none
        · refine Or.inr (Or.inl ⟨{ s with spool := s.spool.drop (t + k + l), closed := true },
            [.sent (abortMessage (some ("No CSM received"))), .closedTransport], ?_, ?_⟩)
          · unfold spoolStep
            rw [hx]
            dsimp only
            rw [if_neg h1, if_neg (by omega), hd]
            dsimp only
            rw [if_neg hs, if_pos hrs]
            rfl
          · unfold spoolStep
            rw [hxe]
            dsimp only
            rw [if_neg h1, if_neg hlen2, htake, hd]
            dsimp only
            rw [if_neg hs, if_pos hrs, hdrop]
            rfl
        · refine Or.inr (Or.inr ⟨{ s with spool := s.spool.drop (t + k + l) },
            [.dispatched msg], ?_, ?_⟩)
          · unfold spoolStep
            rw [hx]
            dsimp only
            rw [if_neg h1, if_neg (by omega), hd]
            dsimp only
            rw [if_neg hs, if_neg hrs]
          · unfold spoolStep
            rw [hxe]
            dsimp only
            rw [if_neg h1, if_neg hlen2, htake, hd]
            dsimp only
            rw [if_neg hs, if_neg hrs, hdrop]

/-- Any fuel above the spool length computes the same run. -/
theorem processSpool_fuel (od : OptDecoder) :
    ∀ (f1 f2 : Nat) (s : ConnState), s.spool.length < f1 → s.spool.length < f2 →
      processSpool od f1 s = processSpool od f2 s := by
  intro f1
  induction f1 with
  | zero => intro f2 s h1 h2; omega
  | succ f1 ih =>
    intro f2 s h1 h2
    cases f2 with
    | zero => omega
    | succ g =>
      simp only [processSpool]
      cases hstep : spoolStep od s with
      | wait => rfl
      | halt s1 ev => rfl
      | step s1 ev =>
        have hlt := step_spool_shrinks hstep
        dsimp only
        rw [ih g s1 (by omega) (by omega)]

/-- Every `halt` outcome carries a closed connection (`abort` closed the
transport, or the event loop closed it after an escaped exception). -/
theorem halt_closed {od : OptDecoder} {s s1 : ConnState} {ev : List Event}
    (h : spoolStep od s = .halt s1 ev) : s1.closed = true := by
  unfold spoolStep at h
  cases hx : extract_message_size s.spool with
  | none => rw [hx] at h; exact StepOut.noConfusion h
  | some tk =>
    obtain ⟨t, k, l⟩ := tk
    rw [hx] at h
    dsimp only at h
    by_cases h1 : myMaxMessageSize < t + k + l
    · rw [if_pos h1] at h
      injection h with hs1 hev
      subst hs1
      rfl
    rw [if_neg h1] at h
    by_cases h2 : s.spool.length < t + k + l
    · rw [if_pos h2] at h; exact StepOut.noConfusion h
    rw [if_neg h2] at h
    cases hd : decodeWithOptions od (s.spool.take (t + k + l)) with
    | none =>
      rw [hd] at h
      injection h with hs1 hev
      subst hs1
      rfl
    | some msg =>
      rw [hd] at h
      dsimp only at h
      by_cases hs : isSignalling msg.code = true
      · rw [if_pos hs] at h
        rcases hps : TcpConnection.process_signaling
            { s with spool := s.spool.drop (t + k + l) } msg with ⟨⟨s2, ev2⟩, exc⟩
        rw [hps] at h
        cases exc with
        | some e =>
          injection h with hs1 hev
          subst hs1
          rfl
        | none => exact StepOut.noConfusion h
      · rw [if_neg hs] at h
        by_cases hrs : ({ s with spool := s.spool.drop (t + k + l) } : ConnState).remoteSettings = none
        · rw [if_pos hrs] at h
          injection h with hs1 hev
          subst hs1
          rfl
        · rw [if_neg hrs] at h; exact StepOut.noConfusion h

/-- `_process_signaling` never reopens a closed connection. -/
theorem process_signaling_closed_mono {s : ConnState} {m : CoapMsg}
    (hc : s.closed = true) : (TcpConnection.process_signaling s m).1.1.closed = true := by
  unfold TcpConnection.process_signaling TcpConnection.abort
  repeat' split
  all_goals first | rfl | exact hc

/-- A `step` outcome never reopens a closed connection. -/
theorem step_closed_mono {od : OptDecoder} {s s1 : ConnState} {ev : List Event}
    (h : spoolStep od s = .step s1 ev) (hc : s.closed = true) : s1.closed = true := by
  unfold spoolStep at h
  cases hx : extract_message_size s.spool with
  | none => rw [hx] at h; exact StepOut.noConfusion h
  | some tk =>
    obtain ⟨t, k, l⟩ := tk
    rw [hx] at h
    dsimp only at h
    by_cases h1 : myMaxMessageSize < t + k + l
    · rw [if_pos h1] at h; exact StepOut.noConfusion h
    rw [if_neg h1] at h
    by_cases h2 : s.spool.length < t + k + l
    · rw [if_pos h2] at h; exact StepOut.noConfusion h
    rw [if_neg h2] at h
    cases hd : decodeWithOptions od (s.spool.take (t + k + l)) with
    | none => rw [hd] at h; exact StepOut.noConfusion h
    | some msg =>
      rw [hd] at h
      dsimp only at h
      by_cases hs : isSignalling msg.code = true
      · rw [if_pos hs] at h
        rcases hps : TcpConnection.process_signaling
            { s with spool := s.spool.drop (t + k + l) } msg with ⟨⟨s2, ev2⟩, exc⟩
        rw [hps] at h
        cases exc with
        | some e => exact StepOut.noConfusion h
        | none =>
          injection h with hs1 hev
          subst hs1
          have := process_signaling_closed_mono
            (s := { s with spool := s.spool.drop (t + k + l) }) (m := msg) hc
          rw [hps] at this
          exact this
      · rw [if_neg hs] at h
        by_cases hrs : ({ s with spool := s.spool.drop (t + k + l) } : ConnState).remoteSettings = none
        · rw [if_pos hrs] at h; exact StepOut.noConfusion h
        · rw [if_neg hrs] at h
          injection h with hs1 hev
          subst hs1
          exact hc

/-- The loop never reopens a closed connection. -/
theorem processSpool_closed_mono (od : OptDecoder) :
    ∀ (f : Nat) (s : ConnState), s.closed = true →
      (processSpool od f s).state.closed = true := by
  intro f
  induction f with
  | zero => intro s hc; exact hc
  | succ f ih =>
    intro s hc
    simp only [processSpool]
    cases hstep : spoolStep od s with
    | wait => exact hc
    | halt s1 ev => exact halt_closed hstep
    | step s1 ev => exact ih s1 (step_closed_mono hstep hc)

/-- A run that did not end in a `return` ended on a `break`: its final state
is quiescent (the next iteration would wait for more data). -/
theorem processSpool_wait_end (od : OptDecoder) :
    ∀ (f : Nat) (s : ConnState), s.spool.length < f →
      (processSpool od f s).halted = false →
      spoolStep od (processSpool od f s).state = .wait := by
  intro f
  induction f with
  | zero => intro s h1; omega
  | succ f ih =>
    intro s h1 h2
    simp only [processSpool] at h2 ⊢
    cases hstep : spoolStep od s with
    | wait => exact hstep
    | halt s1 ev => rw [hstep] at h2; exact absurd h2 (by simp)
    | step s1 ev =>
      rw [hstep] at h2
      have hlt := step_spool_shrinks hstep
      exact ih s1 (by omega) h2

/-- Running the loop on an extended spool: the run first replays the run on
the unextended spool; if that run ended in a `return` the extension is left
unprocessed in the spool, otherwise processing continues on the remainder
plus the extension. -/
theorem processSpool_append (od : OptDecoder) :
    ∀ (f1 f2 : Nat) (s : ConnState) (extra : List Nat),
      s.spool.length < f1 → s.spool.length + extra.length < f2 →
      processSpool od f2 { s with spool := s.spool ++ extra } =
        if (processSpool od f1 s).halted then
          ⟨{ (processSpool od f1 s).state with
              spool := (processSpool od f1 s).state.spool ++ extra },
            (processSpool od f1 s).events, true⟩
        else
          ⟨(processSpool od ((processSpool od f1 s).state.spool.length + extra.length + 1)
              { (processSpool od f1 s).state with
                  spool := (processSpool od f1 s).state.spool ++ extra }).state,
            (processSpool od f1 s).events ++
              (processSpool od ((processSpool od f1 s).state.spool.length + extra.length + 1)
                { (processSpool od f1 s).state with
                    spool := (processSpool od f1 s).state.spool ++ extra }).events,
            (processSpool od ((processSpool od f1 s).state.spool.length + extra.length + 1)
              { (processSpool od f1 s).state with
                  spool := (processSpool od f1 s).state.spool ++ extra }).halted⟩ := by
  intro f1
  induction f1 with
  | zero => intro f2 s extra h1 h2; omega
  | succ f1 ih =>
    intro f2 s extra h1 h2
    cases f2 with
    | zero => omega
    | succ g =>
      rcases spoolStep_append od s extra with hwait | ⟨s1, ev, hh, hhe⟩ | ⟨s1, ev, hh, hhe⟩
      · -- the unextended run waits immediately: the extended run is exactly
        -- the continuation run, with canonical fuel by fuel irrelevance
        have hrun : processSpool od (f1 + 1) s = ⟨s, [], false⟩ := by
          simp only [processSpool, hwait]
        rw [hrun]
        simp only [List.nil_append, if_neg (by simp : ¬false = true)]
        have := processSpool_fuel od (g + 1) (s.spool.length + extra.length + 1)
          { s with spool := s.spool ++ extra }
          (by simp only [List.length_append]; omega)
          (by simp only [List.length_append]; omega)
        rw [this]
      · -- the unextended run halts at the first iteration
        have hrun : processSpool od (f1 + 1) s = ⟨s1, ev, true⟩ := by
          simp only [processSpool, hh]
        have hrune : processSpool od (g + 1) { s with spool := s.spool ++ extra } =
            ⟨{ s1 with spool := s1.spool ++ extra }, ev, true⟩ := by
          simp only [processSpool, hhe]
        rw [hrun, hrune]
        simp
      · -- the unextended run steps; apply the induction hypothesis
        have hlt := step_spool_shrinks hh
        have hrun : processSpool od (f1 + 1) s =
            ⟨(processSpool od f1 s1).state, ev ++ (processSpool od f1 s1).events,
              (processSpool od f1 s1).halted⟩ := by
          simp only [processSpool, hh]
        have hrune : processSpool od (g + 1) { s with spool := s.spool ++ extra } =
            ⟨(processSpool od g { s1 with spool := s1.spool ++ extra }).state,
              ev ++ (processSpool od g { s1 with spool := s1.spool ++ extra }).events,
              (processSpool od g { s1 with spool := s1.spool ++ extra }).halted⟩ := by
          simp only [processSpool, hhe]
        have hih := ih g s1 extra (by omega) (by omega)
        rw [hrun, hrune, hih]
        by_cases hhalt : (processSpool od f1 s1).halted = true
        · rw [if_pos hhalt, if_pos hhalt]
          try simp
        · rw [if_neg hhalt, if_neg hhalt]
          try simp

/-- A run that ended in a `return` left the connection closed. -/
theorem processSpool_halted_closed (od : OptDecoder) :
    ∀ (f : Nat) (s : ConnState), (processSpool od f s).halted = true →
      (processSpool od f s).state.closed = true := by
  intro f
  induction f with
  | zero => intro s h; exact absurd h (by simp [processSpool])
  | succ f ih =>
    intro s h
    simp only [processSpool] at h ⊢
    cases hstep : spoolStep od s with
    | wait => rw [hstep] at h; exact absurd h (by simp)
    | halt s1 ev => exact halt_closed hstep
    | step s1 ev =>
      rw [hstep] at h
      exact ih s1 h

/-- Splitting one read into two: when the connection is still open after the
first part, delivering `d1 ++ d2` in one read equals delivering `d1` and then
`d2`, with events concatenated. -/
theorem data_received_append (od : OptDecoder) (s : ConnState) (d1 d2 : List Nat)
    (hopen : s.closed = false)
    (hmid : (TcpConnection.data_received od s d1).state.closed = false) :
    TcpConnection.data_received od s (d1 ++ d2) =
      ⟨(TcpConnection.data_received od (TcpConnection.data_received od s d1).state d2).state,
        (TcpConnection.data_received od s d1).events ++
          (TcpConnection.data_received od (TcpConnection.data_received od s d1).state d2).events,
        (TcpConnection.data_received od (TcpConnection.data_received od s d1).state d2).halted⟩ := by
  have h1 : TcpConnection.data_received od s d1 =
      processSpool od (s.spool.length + d1.length + 1) { s with spool := s.spool ++ d1 } := by
    unfold TcpConnection.data_received
    rw [if_neg (by simp [hopen])]
  have hr1 : (processSpool od (s.spool.length + d1.length + 1)
      { s with spool := s.spool ++ d1 }).state.closed = false := by
    rw [← h1]
    exact hmid
  have h3 : TcpConnection.data_received od s (d1 ++ d2) =
      processSpool od (s.spool.length + (d1 ++ d2).length + 1)
        { s with spool := s.spool ++ (d1 ++ d2) } := by
    unfold TcpConnection.data_received
    rw [if_neg (by simp [hopen])]
  have h2 : TcpConnection.data_received od
      (processSpool od (s.spool.length + d1.length + 1)
        { s with spool := s.spool ++ d1 }).state d2 =
      processSpool od ((processSpool od (s.spool.length + d1.length + 1)
          { s with spool := s.spool ++ d1 }).state.spool.length + d2.length + 1)
        { (processSpool od (s.spool.length + d1.length + 1)
            { s with spool := s.spool ++ d1 }).state with
          spool := (processSpool od (s.spool.length + d1.length + 1)
            { s with spool := s.spool ++ d1 }).state.spool ++ d2 } := by
    unfold TcpConnection.data_received
    rw [if_neg (by simp [hr1])]
  rw [h3, h1, h2]
  have hnothalt : (processSpool od (s.spool.length + d1.length + 1)
      { s with spool := s.spool ++ d1 }).halted = false := by
    cases hb : (processSpool od (s.spool.length + d1.length + 1)
        { s with spool := s.spool ++ d1 }).halted
    · rfl
    · exfalso
      have := processSpool_halted_closed od _ _ hb
      rw [hr1] at this
      exact Bool.noConfusion this
  have hmaster := processSpool_append od (s.spool.length + d1.length + 1)
    (s.spool.length + (d1 ++ d2).length + 1) { s with spool := s.spool ++ d1 } d2
    (by simp only [List.length_append]; omega)
    (by simp only [List.length_append]; omega)
  have hshape : ({ s with spool := s.spool ++ (d1 ++ d2) } : ConnState) =
      { { s with spool := s.spool ++ d1 } with
          spool := ({ s with spool := s.spool ++ d1 } : ConnState).spool ++ d2 } := by
    simp [List.append_assoc]
  rw [hshape, hmaster, if_neg (by simp [hnothalt])]

/-- Closing is monotone across a read extension. -/
theorem data_received_closed_mono (od : OptDecoder) (s : ConnState) (d1 d2 : List Nat)
    (hopen : s.closed = false)
    (hc : (TcpConnection.data_received od s d1).state.closed = true) :
    (TcpConnection.data_received od s (d1 ++ d2)).state.closed = true := by
  have h1 : TcpConnection.data_received od s d1 =
      processSpool od (s.spool.length + d1.length + 1) { s with spool := s.spool ++ d1 } := by
    unfold TcpConnection.data_received
    rw [if_neg (by simp [hopen])]
  have hr1 : (processSpool od (s.spool.length + d1.length + 1)
      { s with spool := s.spool ++ d1 }).state.closed = true := by
    rw [← h1]
    exact hc
  have h3 : TcpConnection.data_received od s (d1 ++ d2) =
      processSpool od (s.spool.length + (d1 ++ d2).length + 1)
        { s with spool := s.spool ++ (d1 ++ d2) } := by
    unfold TcpConnection.data_received
    rw [if_neg (by simp [hopen])]
  rw [h3]
  have hmaster := processSpool_append od (s.spool.length + d1.length + 1)
    (s.spool.length + (d1 ++ d2).length + 1) { s with spool := s.spool ++ d1 } d2
    (by simp only [List.length_append]; omega)
    (by simp only [List.length_append]; omega)
  have hshape : ({ s with spool := s.spool ++ (d1 ++ d2) } : ConnState) =
      { { s with spool := s.spool ++ d1 } with
          spool := ({ s with spool := s.spool ++ d1 } : ConnState).spool ++ d2 } := by
    simp [List.append_assoc]
  rw [hshape, hmaster]
  by_cases hhalt : (processSpool od (s.spool.length + d1.length + 1)
      { s with spool := s.spool ++ d1 }).halted = true
  · rw [if_pos hhalt]
    exact hr1
  · rw [if_neg hhalt]
    exact processSpool_closed_mono od _ _ hr1

/-- Byte-at-a-time delivery agrees with single-chunk delivery as long as the
single-chunk read leaves the connection open (no abort, no fatal error). -/
theorem feed_eq_chunk (od : OptDecoder) :
    ∀ (bs : List Nat) (s : ConnState),
      s.closed = false → spoolStep od s = .wait →
      (TcpConnection.data_received od s bs).state.closed = false →
      feedBytes od s bs =
        ((TcpConnection.data_received od s bs).state,
          (TcpConnection.data_received od s bs).events) := by
  intro bs
  induction bs with
  | nil =>
    intro s hopen hq hfin
    have hdr : TcpConnection.data_received od s [] = ⟨s, [], false⟩ := by
      unfold TcpConnection.data_received
      rw [if_neg (by simp [hopen])]
      have hstate : ({ s with spool := s.spool ++ [] } : ConnState) = s := by simp
      rw [hstate]
      simp only [List.length_nil, Nat.add_zero, processSpool, hq]
    rw [hdr]
    rfl
  | cons b rest ih =>
    intro s hopen hq hfin
    have hsplit : (b :: rest : List Nat) = [b] ++ rest := rfl
    have hr1open : (TcpConnection.data_received od s [b]).state.closed = false := by
      cases hb : (TcpConnection.data_received od s [b]).state.closed
      · rfl
      · exfalso
        have hmono := data_received_closed_mono od s [b] rest hopen hb
        rw [← hsplit, hfin] at hmono
        exact Bool.noConfusion hmono
    have happ := data_received_append od s [b] rest hopen hr1open
    rw [← hsplit] at happ
    have h1 : TcpConnection.data_received od s [b] =
        processSpool od (s.spool.length + [b].length + 1) { s with spool := s.spool ++ [b] } := by
      unfold TcpConnection.data_received
      rw [if_neg (by simp [hopen])]
    have hnothalt1 : (processSpool od (s.spool.length + [b].length + 1)
        { s with spool := s.spool ++ [b] }).halted = false := by
      cases hb : (processSpool od (s.spool.length + [b].length + 1)
          { s with spool := s.spool ++ [b] }).halted
      · rfl
      · exfalso
        have hcl := processSpool_halted_closed od _ _ hb
        rw [← h1, hr1open] at hcl
        exact Bool.noConfusion hcl
    have hq1 : spoolStep od (TcpConnection.data_received od s [b]).state = .wait := by
      rw [h1]
      exact processSpool_wait_end od _ _
        (by simp only [List.length_append, List.length_cons, List.length_nil]; omega) hnothalt1
    have hfin2 : (TcpConnection.data_received od
        (TcpConnection.data_received od s [b]).state rest).state.closed = false := by
      rw [happ] at hfin
      exact hfin
    have hih := ih (TcpConnection.data_received od s [b]).state hr1open hq1 hfin2
    show ((feedBytes od (TcpConnection.data_received od s [b]).state rest).1,
        (TcpConnection.data_received od s [b]).events ++
          (feedBytes od (TcpConnection.data_received od s [b]).state rest).2) = _
    rw [hih, happ]

/-- A read on a fresh (open, empty-spool) connection is one loop run over
exactly the delivered bytes. -/
theorem data_received_fresh (od : OptDecoder) (s : ConnState) (d : List Nat)
    (hopen : s.closed = false) (hempty : s.spool = []) :
    TcpConnection.data_received od s d =
      processSpool od (d.length + 1) { s with spool := d } := by
  unfold TcpConnection.data_received
  rw [if_neg (by simp [hopen]), hempty]
  simp only [List.nil_append, List.length_nil, Nat.zero_add]

/-- The loop waits immediately on an empty spool. -/
theorem processSpool_empty (od : OptDecoder) (f : Nat) (s : ConnState)
    (h : s.spool = []) : processSpool od f s = ⟨s, [], false⟩ := by
  cases f with
  | zero => rfl
  | succ f =>
    have hw : spoolStep od s = .wait := by
      unfold spoolStep
      rw [h]
      rfl
    simp only [processSpool, hw]

/-- If no option of a list is critical, the stray-critical scan passes. -/
theorem findStrayCritical_none : ∀ (opts : List OptionValue),
    (∀ o ∈ opts, isCritical o.number = false) → findStrayCritical opts = none
  | [], _ => rfl
  | o :: rest, h => by
    unfold findStrayCritical
    rw [if_neg (by simp [h o (by simp)])]
    exact findStrayCritical_none rest (fun o2 ho2 => h o2 (by simp [ho2]))

/-- C8: when the measured total frame length exceeds the local maximum
message size (1 MiB), the read aborts immediately: the abort frame is sent,
the transport is closed, the loop returns without slicing the frame, and no
message is dispatched. -/
theorem c8_oversize_abort (od : OptDecoder) (s : ConnState) (d : List Nat) (t k l : Nat)
    (hopen : s.closed = false)
    (hx : extract_message_size (s.spool ++ d) = some (t, k, l))
    (hbig : myMaxMessageSize < t + k + l) :
    TcpConnection.data_received od s d =
      ⟨{ s with spool := s.spool ++ d, closed := true },
        [.sent (abortMessage none), .closedTransport], true⟩ := by
  unfold TcpConnection.data_received
  rw [if_neg (by simp [hopen])]
  simp only [processSpool]
  have hstep : spoolStep od { s with spool := s.spool ++ d } =
      .halt { s with spool := s.spool ++ d, closed := true }
        [.sent (abortMessage none), .closedTransport] := by
    unfold spoolStep
    dsimp only
    rw [hx]
    dsimp only
    rw [if_pos hbig]
    rfl
  rw [hstep]

/-- Witness for C8: a code-15 frame header announcing about 4 GiB aborts a
fresh connection at once. -/
theorem c8_oversize_abort_witness :
    extract_message_size (([] : List Nat) ++ [240, 255, 255, 255, 255]) =
      some (6, 0, 4295033100) ∧
    TcpConnection.data_received emptyOptDecode
      { spool := [], remoteSettings := none, closed := false } [240, 255, 255, 255, 255] =
      ⟨{ spool := [] ++ [240, 255, 255, 255, 255], remoteSettings := none, closed := true },
        [.sent (abortMessage none), .closedTransport], true⟩ :=
  ⟨by decide,
    c8_oversize_abort emptyOptDecode
      { spool := [], remoteSettings := none, closed := false } [240, 255, 255, 255, 255]
      6 0 4295033100 rfl (by decide) (by decide)⟩

/-- C4: capability gating.  For a read consisting of exactly one complete,
acceptable application (non-signalling) frame: while no CSM has been
processed (`_remote_settings` is `None`) the connection aborts with the
"No CSM received" diagnostic and nothing is dispatched; once remote settings
are known the message is dispatched and the connection stays open. -/
theorem c4_capability_gating (od : OptDecoder) (s : ConnState) (d : List Nat)
    (t k l : Nat) (m : CoapMsg)
    (hopen : s.closed = false) (hempty : s.spool = [])
    (hx : extract_message_size d = some (t, k, l))
    (hlen : d.length = t + k + l)
    (hsize : t + k + l ≤ myMaxMessageSize)
    (hdec : decodeWithOptions od d = some m)
    (happ : isSignalling m.code = false) :
    (s.remoteSettings = none →
      TcpConnection.data_received od s d =
        ⟨{ s with spool := [], closed := true },
          [.sent (abortMessage (some ("No CSM received"))), .closedTransport], true⟩) ∧
    (∀ st, s.remoteSettings = some st →
      TcpConnection.data_received od s d =
        ⟨{ s with spool := [] }, [.dispatched m], false⟩) := by
  have htake : d.take (t + k + l) = d := by
    rw [← hlen, List.take_length]
  have hdrop : d.drop (t + k + l) = [] := by
    rw [← hlen, List.drop_length]
  constructor
  · intro hrs
    rw [data_received_fresh od s d hopen hempty]
    simp only [processSpool]
    have hstep : spoolStep od { s with spool := d } =
        .halt { s with spool := [], closed := true }
          [.sent (abortMessage (some ("No CSM received"))), .closedTransport] := by
      unfold spoolStep
      dsimp only
      rw [hx]
      dsimp only
      rw [if_neg (by omega), if_neg (by omega), htake, hdec]
      dsimp only
      rw [if_neg (by simp [happ]), hdrop]
      rw [if_pos hrs]
      rfl
    rw [hstep]
  · intro st hrs
    rw [data_received_fresh od s d hopen hempty]
    simp only [processSpool]
    have hstep : spoolStep od { s with spool := d } =
        .step { s with spool := [] } [.dispatched m] := by
      unfold spoolStep
      dsimp only
      rw [hx]
      dsimp only
      rw [if_neg (by omega), if_neg (by omega), htake, hdec]
      dsimp only
      rw [if_neg (by simp [happ]), hdrop]
      rw [if_neg (by simp [hrs])]
    rw [hstep]
    dsimp only
    rw [processSpool_empty od d.length { s with spool := [] } rfl]
    simp

/-- Witness for C4 at a concrete two-byte frame with code 1: before any CSM
the connection aborts with "No CSM received"; with settings known the frame
is dispatched. -/
theorem c4_capability_gating_witness :
    (TcpConnection.data_received emptyOptDecode
        { spool := [], remoteSettings := none, closed := false } [0, 1] =
      ⟨{ spool := [], remoteSettings := none, closed := true },
        [.sent (abortMessage (some ("No CSM received"))), .closedTransport], true⟩) ∧
    (TcpConnection.data_received emptyOptDecode
        { spool := [], remoteSettings := some { maxMessageSize := none, blockWiseTransfer := false },
          closed := false } [0, 1] =
      ⟨{ spool := [], remoteSettings := some { maxMessageSize := none, blockWiseTransfer := false },
          closed := false },
        [.dispatched { code := 1, token := [], options := [], payload := [] }], false⟩) :=
  ⟨(c4_capability_gating emptyOptDecode
      { spool := [], remoteSettings := none, closed := false } [0, 1] 2 0 0
      { code := 1, token := [], options := [], payload := [] }
      rfl rfl (by decide) (by decide) (by decide) (by decide) (by decide)).1 rfl,
    (c4_capability_gating emptyOptDecode
      { spool := [], remoteSettings := some { maxMessageSize := none, blockWiseTransfer := false },
        closed := false } [0, 1] 2 0 0
      { code := 1, token := [], options := [], payload := [] }
      rfl rfl (by decide) (by decide) (by decide) (by decide) (by decide)).2
      { maxMessageSize := none, blockWiseTransfer := false } rfl⟩

/-- C7: ping/pong.  For a read consisting of exactly one complete ping frame
none of whose options is critical, exactly one pong carrying the same token
is sent, nothing is dispatched, and the connection state is otherwise
untouched; a pong frame produces no events at all. -/
theorem c7_ping_pong (od : OptDecoder) (s : ConnState) (d : List Nat)
    (t k l : Nat) (m : CoapMsg)
    (hopen : s.closed = false) (hempty : s.spool = [])
    (hx : extract_message_size d = some (t, k, l))
    (hlen : d.length = t + k + l)
    (hsize : t + k + l ≤ myMaxMessageSize)
    (hdec : decodeWithOptions od d = some m)
    (hnocrit : ∀ o ∈ m.options, isCritical o.number = false) :
    (m.code = PING →
      TcpConnection.data_received od s d =
        ⟨{ s with spool := [] },
          [.sent { code := PONG, token := m.token, options := [], payload := [] }], false⟩) ∧
    (m.code = PONG →
      TcpConnection.data_received od s d = ⟨{ s with spool := [] }, [], false⟩) := by
  have htake : d.take (t + k + l) = d := by
    rw [← hlen, List.take_length]
  have hdrop : d.drop (t + k + l) = [] := by
    rw [← hlen, List.drop_length]
  constructor
  · intro hping
    have hps : TcpConnection.process_signaling { s with spool := [] } m =
        (({ s with spool := [] },
          [.sent { code := PONG, token := m.token, options := [], payload := [] }]), none) := by
      unfold TcpConnection.process_signaling
      rw [if_neg (by rw [hping]; decide), if_pos (Or.inl hping),
        findStrayCritical_none m.options hnocrit]
      dsimp only
      rw [if_pos hping]
    rw [data_received_fresh od s d hopen hempty]
    simp only [processSpool]
    have hstep : spoolStep od { s with spool := d } =
        .step { s with spool := [] }
          [.sent { code := PONG, token := m.token, options := [], payload := [] }] := by
      unfold spoolStep
      dsimp only
      rw [hx]
      dsimp only
      rw [if_neg (by omega), if_neg (by omega), htake, hdec]
      dsimp only
      rw [if_pos (by rw [hping]; decide), hdrop, hps]
    rw [hstep]
    dsimp only
    rw [processSpool_empty od d.length { s with spool := [] } rfl]
    simp
  · intro hpong
    have hps : TcpConnection.process_signaling { s with spool := [] } m =
        (({ s with spool := [] }, []), none) := by
      unfold TcpConnection.process_signaling
      rw [if_neg (by rw [hpong]; decide), if_pos (Or.inr (Or.inl hpong)),
        findStrayCritical_none m.options hnocrit]
      dsimp only
      rw [if_neg (by rw [hpong]; decide), if_pos hpong]
    rw [data_received_fresh od s d hopen hempty]
    simp only [processSpool]
    have hstep : spoolStep od { s with spool := d } = .step { s with spool := [] } [] := by
      unfold spoolStep
      dsimp only
      rw [hx]
      dsimp only
      rw [if_neg (by omega), if_neg (by omega), htake, hdec]
      dsimp only
      rw [if_pos (by rw [hpong]; decide), hdrop, hps]
    rw [hstep]
    dsimp only
    rw [processSpool_empty od d.length { s with spool := [] } rfl]
    simp

/-- Witness for C7: a ping frame with token `0x2A` yields exactly one pong
with the same token; a pong frame yields nothing. -/
theorem c7_ping_pong_witness :
    (TcpConnection.data_received emptyOptDecode
        { spool := [], remoteSettings := none, closed := false } [1, 226, 42] =
      ⟨{ spool := [], remoteSettings := none, closed := false },
        [.sent { code := PONG, token := [42], options := [], payload := [] }], false⟩) ∧
    (TcpConnection.data_received emptyOptDecode
        { spool := [], remoteSettings := none, closed := false } [1, 227, 42] =
      ⟨{ spool := [], remoteSettings := none, closed := false }, [], false⟩) :=
  ⟨(c7_ping_pong emptyOptDecode
      { spool := [], remoteSettings := none, closed := false } [1, 226, 42] 2 1 0
      { code := 226, token := [42], options := [], payload := [] }
      rfl rfl (by decide) (by decide) (by decide) (by decide) (by decide)).1 rfl,
    (c7_ping_pong emptyOptDecode
      { spool := [], remoteSettings := none, closed := false } [1, 227, 42] 2 1 0
      { code := 227, token := [42], options := [], payload := [] }
      rfl rfl (by decide) (by decide) (by decide) (by decide) (by decide)).2 rfl⟩

/-- C3 (amended): delivering a byte sequence to a fresh connection one byte
per read produces exactly the events (hence the decoded-message sequence) of
delivering it as a single chunk, provided the single-chunk read leaves the
connection open (no abort and no escaped exception).  The counterexample
`c3_chunking_counterexample` shows the unconditional claim fails when an
abort occurs mid-buffer. -/
theorem c3_chunking_invariance (od : OptDecoder) (s : ConnState) (bs : List Nat)
    (hopen : s.closed = false) (hempty : s.spool = [])
    (hnoabort : (TcpConnection.data_received od s bs).state.closed = false) :
    feedBytes od s bs =
      ((TcpConnection.data_received od s bs).state,
        (TcpConnection.data_received od s bs).events) := by
  apply feed_eq_chunk od bs s hopen ?_ hnoabort
  unfold spoolStep
  rw [hempty]
  rfl

/-- Witness for amended C3: a CSM frame followed by a ping frame, delivered
byte-wise, matches the single-chunk run. -/
theorem c3_chunking_invariance_witness :
    feedBytes emptyOptDecode { spool := [], remoteSettings := none, closed := false }
        [0, 225, 1, 226, 42] =
      ((TcpConnection.data_received emptyOptDecode
          { spool := [], remoteSettings := none, closed := false } [0, 225, 1, 226, 42]).state,
        (TcpConnection.data_received emptyOptDecode
          { spool := [], remoteSettings := none, closed := false } [0, 225, 1, 226, 42]).events) :=
  c3_chunking_invariance emptyOptDecode
    { spool := [], remoteSettings := none, closed := false } [0, 225, 1, 226, 42]
    rfl rfl (by decide)

/-- Counterexample to C3 as stated: a CSM frame, an unknown-signalling-code
frame (code 230, which triggers an abort), and an application frame, in one
buffer.  Delivered as a single chunk the application message is still
dispatched after the abort; delivered byte-wise the transport is already
closed when its bytes arrive, so nothing is dispatched: the decoded-message
sequences differ. -/
theorem c3_chunking_counterexample :
    dispatchedEvents (TcpConnection.data_received emptyOptDecode
        { spool := [], remoteSettings := none, closed := false }
        [0, 225, 0, 230, 0, 1]).events =
      [{ code := 1, token := [], options := [], payload := [] }] ∧
    dispatchedEvents (feedBytes emptyOptDecode
        { spool := [], remoteSettings := none, closed := false }
        [0, 225, 0, 230, 0, 1]).2 = [] := by
  decide

/-- C5 (amended): the abort paths taken inside `data_received` itself
(oversized frame — see `c8_oversize_abort` — and unparsable frame, shown
here) do end the current read immediately with only the abort frame sent,
and a closed transport receives no further reads at all; but an abort
triggered from inside `_process_signaling` is not terminal for the current
read (see `c5_abort_counterexample`). -/
theorem c5_abort_terminality_amended (od : OptDecoder) (s : ConnState) (d : List Nat) :
    (s.closed = true → TcpConnection.data_received od s d = ⟨s, [], false⟩) ∧
    (s.closed = false →
      ∀ t k l, extract_message_size (s.spool ++ d) = some (t, k, l) →
        t + k + l ≤ myMaxMessageSize →
        t + k + l ≤ (s.spool ++ d).length →
        decodeWithOptions od ((s.spool ++ d).take (t + k + l)) = none →
        TcpConnection.data_received od s d =
          ⟨{ s with spool := s.spool ++ d, closed := true },
            [.sent (abortMessage (some ("Failed to parse message"))), .closedTransport],
            true⟩) := by
  constructor
  · intro hc
    unfold TcpConnection.data_received
    rw [if_pos hc]
  · intro hopen t k l hx hsize hcomplete hdec
    unfold TcpConnection.data_received
    rw [if_neg (by simp [hopen])]
    simp only [processSpool]
    have hstep : spoolStep od { s with spool := s.spool ++ d } =
        .halt { s with spool := s.spool ++ d, closed := true }
          [.sent (abortMessage (some ("Failed to parse message"))), .closedTransport] := by
      unfold spoolStep
      dsimp only
      rw [hx]
      dsimp only
      rw [if_neg (by omega), if_neg (by omega), hdec]
      rfl
    rw [hstep]

/-- Witness for amended C5: a closed connection ignores a delivered frame,
and a frame with declared token length 9 (unparsable) aborts the read with
exactly the parse-failure abort events. -/
theorem c5_abort_terminality_amended_witness :
    (TcpConnection.data_received emptyOptDecode
        { spool := [], remoteSettings := none, closed := true } [0, 1] =
      ⟨{ spool := [], remoteSettings := none, closed := true }, [], false⟩) ∧
    (TcpConnection.data_received emptyOptDecode
        { spool := [], remoteSettings := none, closed := false }
        [9, 99, 1, 2, 3, 4, 5, 6, 7, 8, 9] =
      ⟨{ spool := [] ++ [9, 99, 1, 2, 3, 4, 5, 6, 7, 8, 9], remoteSettings := none,
          closed := true },
        [.sent (abortMessage (some ("Failed to parse message"))), .closedTransport], true⟩) :=
  ⟨(c5_abort_terminality_amended emptyOptDecode
      { spool := [], remoteSettings := none, closed := true } [0, 1]).1 rfl,
    (c5_abort_terminality_amended emptyOptDecode
      { spool := [], remoteSettings := none, closed := false }
      [9, 99, 1, 2, 3, 4, 5, 6, 7, 8, 9]).2 rfl 2 9 0
      (by decide) (by decide) (by decide) (by decide)⟩

/-- Counterexample to C5 as stated: after the first frame (unknown
signalling code 230) invokes `abort` — which sends the abort frame and
closes the transport — the loop continues with the already-buffered ping
frame and sends a pong.  A message other than the abort frame is sent after
the abort, and a further frame from the buffer is processed. -/
theorem c5_abort_counterexample :
    (TcpConnection.data_received emptyOptDecode
        { spool := [], remoteSettings := some { maxMessageSize := none, blockWiseTransfer := false },
          closed := false } [0, 230, 1, 226, 42]).events =
      [.sent (abortMessage (some ("Unknown signalling code"))), .closedTransport,
        .sent { code := PONG, token := [42], options := [], payload := [] }] := by
  decide

/-- C6: `TcpConnection.abort`.  With a diagnostic and no bad option the abort
frame carrying the UTF-8 diagnostic is sent and the transport is closed; but
with `bad_csm_option` given the undefined-name bug raises `NameError` before
anything is sent or closed, so the claim that it completes without raising
and still closes the stream fails on the code. -/
theorem c6_abort_bad_option :
    (TcpConnection.abort { spool := [], remoteSettings := none, closed := false }
        (some ("Bye")) none =
      (({ spool := [], remoteSettings := none, closed := true },
        [.sent { code := ABORT, token := [], options := [], payload := asciiBytes ("Bye") },
          .closedTransport]), none)) ∧
    (TcpConnection.abort { spool := [], remoteSettings := none, closed := false }
        none (some 9) =
      (({ spool := [], remoteSettings := none, closed := false }, []), some .nameError)) ∧
    (TcpConnection.abort { spool := [], remoteSettings := none, closed := false }
        (some ("Bad CSM option")) (some 2) =
      (({ spool := [], remoteSettings := none, closed := false }, []), some .nameError)) := by
  decide

/-- C9: when an outgoing message has no established remote connection of
this pool, no unresolved-remote authority and no `uri_host` option,
resolving a destination fails synchronously with the `ValueError` of
`_spawn_protocol`, and the client pool is left exactly as it was: no
connection is created or inserted. -/
theorem c9_no_destination_value_error (st : TCPClientState) (m : OutgoingMessage)
    (h1 : m.remoteIsThisPool = false)
    (h2 : m.requested_scheme = some ("coap+tcp"))
    (h3 : m.unresolved_remote = none)
    (h4 : m.uri_host = none) :
    TCPClient.fill_or_recognize_remote st m =
      (st, .valueError
        ("No location found to send message to (neither in .opt.uri_host nor in .remote)")) := by
  unfold TCPClient.fill_or_recognize_remote TCPClient.spawn_protocol
  rw [if_neg (by simp [h1]), if_pos h2, h3, h4]

/-- Witness for C9 at a concrete message and a non-empty pool. -/
theorem c9_no_destination_value_error_witness :
    TCPClient.fill_or_recognize_remote
        { pool := [((some ("h"), 5683), 0)], nextConnId := 1 }
        { remoteIsThisPool := false, unresolved_remote := none, uri_host := none,
          uri_port := some 7, requested_scheme := some ("coap+tcp") } =
      ({ pool := [((some ("h"), 5683), 0)], nextConnId := 1 },
        .valueError
          ("No location found to send message to (neither in .opt.uri_host nor in .remote)")) :=
  c9_no_destination_value_error
    { pool := [((some ("h"), 5683), 0)], nextConnId := 1 }
    { remoteIsThisPool := false, unresolved_remote := none, uri_host := none,
      uri_port := some 7, requested_scheme := some ("coap+tcp") }
    rfl rfl rfl rfl

end AiocoapTcp
